import Mathlib

/-
Shallow embedding of the SAR scene registry and deduplication matcher
(src/utils/registry.py, slot dispatch from src/main.py).

Modelling conventions:
* JSON objects keep Python dict insertion order; they are embedded as
  association lists `List (String × _)`.
* A JSON field that may be missing, null, or carry a value is a `JField`.
* Geographic coordinates are rationals (`ℚ`); the Python floats carry no
  float-specific behaviour in the matching logic being verified.
* Dates are day numbers (`Int`): the source compares
  `abs((scene_date - maxar_date).days)` against a day tolerance, so day
  granularity is exactly what the comparison consumes.  A stored
  acquisition-date string is abstracted by its `datetime.fromisoformat`
  outcome: `some d` parses to day number `d`, `none` fails to parse.
* The filesystem seen by the validation pass is a total map from paths to
  a file status (existence, byte size, rasterio-openable dimensions).
-/

namespace SarReg

/-- Output-file path, as stored in the registry. -/
abbrev Path := String

/-- A JSON object field: absent key, key present with null, or a value. -/
inductive JField (α : Type) where
  | absent : JField α
  | null : JField α
  | val : α → JField α
deriving DecidableEq, Repr

/-- Stored acquisition-date string, abstracted by its parse outcome
(`some d` = parses to day number `d`; `none` = `fromisoformat` raises). -/
abbrev DateVal := Option Int

/-- One entry of a scene's `maxar_chips` mapping. -/
structure ChipInfo where
  bounds : Option (List ℚ)
  processed_files : List (String × Path)
  processing_date : String
  disaster_phase : Option String
deriving DecidableEq, Repr

/-- One scene entry of the registry document. -/
structure SceneInfo where
  sentinel_bounds : Option (List ℚ)
  processed_files : List (String × Path)
  processing_date : String
  disaster_phase : JField String
  acquisition_date : JField DateVal
  maxar_chips : Option (List (String × ChipInfo))
deriving DecidableEq, Repr

/-- The registry document: scene id to scene entry, in insertion order. -/
abbrev Registry := List (String × SceneInfo)

/-- Status of one path on disk: `os.path.exists`, `os.path.getsize`, and
the result of `rasterio.open` (`none` = open raises; otherwise band
count, width, height). -/
structure FileStat where
  onDisk : Bool
  size : Nat
  raster : Option (Nat × Nat × Nat)
deriving DecidableEq, Repr

/-- The filesystem visible to the validation pass. -/
abbrev FileSystem := Path → FileStat

/-- Python dict lookup on an association list. -/
def lookupKey (l : List (String × α)) (k : String) : Option α :=
  match l.find? (fun p => p.1 == k) with
  | some p => some p.2
  | none => none

/-- Python dict assignment `d[k] = v`: replace in place if the key exists,
append otherwise. -/
def setKey (l : List (String × α)) (k : String) (v : α) : List (String × α) :=
  if l.any (fun p => p.1 == k) then l.map (fun p => if p.1 == k then (k, v) else p)
  else l ++ [(k, v)]

/-- Python `in` on dict keys. -/
def hasKey (l : List (String × α)) (k : String) : Bool :=
  l.any (fun p => p.1 == k)

/-- Checks on one referenced file, as in the containment-pass validation
block: must exist, have non-zero size, and open as a raster with non-zero
band count, width and height. -/
def validFile (fs : FileSystem) (fpath : Path) : Bool :=
  let st := fs fpath
  st.onDisk && st.size != 0 &&
    (match st.raster with
     | none => false
     | some (c, w, h) => c != 0 && w != 0 && h != 0)

/-- The validation loop over a candidate scene's `processed_files`: entries
whose kind is not `vv` or `vh` are skipped; any failing check breaks out
(the `for`-`else` succeeds only when no check broke). -/
def validateFiles (fs : FileSystem) : List (String × Path) → Bool
  | [] => true
  | (ftype, fpath) :: rest =>
    if ftype != "vv" && ftype != "vh" then validateFiles fs rest
    else validFile fs fpath && validateFiles fs rest

/-- Python truthiness of the scene's `disaster_phase` value: a non-empty
string, else nothing. -/
def truthyPhase : JField String → Option String
  | .val s => if s == "" then none else some s
  | _ => none

/-- The scene-skip test used by both matcher passes:
`strict_phase_check and scene_disaster_phase and scene_disaster_phase != disaster_phase`
where `strict_phase_check = disaster_phase != 'unknown'` and the request
phase may be `None`. -/
def phaseSkip (reqPhase : Option String) (f : JField String) : Bool :=
  (reqPhase != some "unknown") &&
    (match truthyPhase f with
     | some s => reqPhase != some s
     | none => false)

/-- The four per-component tolerance comparisons of the exact-chip pass,
in source order (left, bottom, right, top). -/
def chipBoundsMatch (tol : ℚ) (mb cb : List ℚ) : Bool :=
  decide (|mb.getD 0 0 - cb.getD 0 0| ≤ tol) &&
  decide (|mb.getD 1 0 - cb.getD 1 0| ≤ tol) &&
  decide (|mb.getD 2 0 - cb.getD 2 0| ≤ tol) &&
  decide (|mb.getD 3 0 - cb.getD 3 0| ≤ tol)

/-- Inner loop of the exact-chip pass over one scene's `maxar_chips`: skip
chips with missing or non-4-component bounds, return the first chip whose
bounds all lie within the tolerance. -/
def findMatchingChip (tol : ℚ) (mb : List ℚ) :
    List (String × ChipInfo) → Option (List (String × Path))
  | [] => none
  | (_, ci) :: rest =>
    match ci.bounds with
    | none => findMatchingChip tol mb rest
    | some cb =>
      if cb.length ≠ 4 then findMatchingChip tol mb rest
      else if chipBoundsMatch tol mb cb then some ci.processed_files
      else findMatchingChip tol mb rest

/-- First pass of `check_scene_overlap`: scan scenes in registry order,
skip phase-mismatched scenes, and return the first exact chip match. -/
def exactChipPass (tol : ℚ) (mb : List ℚ) (reqPhase : Option String) :
    Registry → Option (String × List (String × Path))
  | [] => none
  | (sid, info) :: rest =>
    if phaseSkip reqPhase info.disaster_phase then exactChipPass tol mb reqPhase rest
    else
      match info.maxar_chips with
      | none => exactChipPass tol mb reqPhase rest
      | some chips =>
        match findMatchingChip tol mb chips with
        | some files => some (sid, files)
        | none => exactChipPass tol mb reqPhase rest

/-- Date filter of the containment pass: a scene is skipped only when its
`acquisition_date` is a present, parseable date farther than the day
tolerance from the request date (absent, null or unparseable dates never
skip, the parse exception being caught). -/
def dateSkip (dateTol : Nat) (mdate : Int) : JField DateVal → Bool
  | .val (some d) => decide ((d - mdate).natAbs > dateTol)
  | _ => false

/-- Containment test of the second pass, conjuncts in source order.  The
source destructures the stored bounds as
`s_min_lat, s_min_lon, s_max_lat, s_max_lon = sentinel_bounds`
and tests `maxar_left >= s_min_lon - buffer`, `maxar_right <= s_max_lon + buffer`,
`maxar_bottom >= s_min_lat - buffer`, `maxar_top <= s_max_lat + buffer`;
so request component 0 is compared against stored component 1, and so on. -/
def containmentHit (buf : ℚ) (mb sb : List ℚ) : Bool :=
  decide (mb.getD 0 0 ≥ sb.getD 1 0 - buf) &&
  decide (mb.getD 2 0 ≤ sb.getD 3 0 + buf) &&
  decide (mb.getD 1 0 ≥ sb.getD 0 0 - buf) &&
  decide (mb.getD 3 0 ≤ sb.getD 2 0 + buf)

/-- Second pass of `check_scene_overlap`: phase filter, date filter,
bounds-shape guard, containment test, then file validation; a validation
failure moves on to the next scene. -/
def containmentPass (fs : FileSystem) (buf : ℚ) (dateTol : Nat) (mb : List ℚ)
    (reqPhase : Option String) (mdate : Int) :
    Registry → Option (String × List (String × Path))
  | [] => none
  | (sid, info) :: rest =>
    if phaseSkip reqPhase info.disaster_phase then
      containmentPass fs buf dateTol mb reqPhase mdate rest
    else if dateSkip dateTol mdate info.acquisition_date then
      containmentPass fs buf dateTol mb reqPhase mdate rest
    else
      match info.sentinel_bounds with
      | none => containmentPass fs buf dateTol mb reqPhase mdate rest
      | some sb =>
        if sb.length ≠ 4 then containmentPass fs buf dateTol mb reqPhase mdate rest
        else if containmentHit buf mb sb then
          if validateFiles fs info.processed_files then some (sid, info.processed_files)
          else containmentPass fs buf dateTol mb reqPhase mdate rest
        else containmentPass fs buf dateTol mb reqPhase mdate rest

/-- The matcher `check_scene_overlap(maxar_bounds, registry, disaster_phase,
maxar_date, tolerance, date_tolerance_days)`.  Missing or non-4-component
request bounds raise `ValueError` (the `Except.error` branch); an empty
registry short-circuits to no match; otherwise the exact-chip pass runs
first and the containment pass (buffer fixed at 0.1 degrees) only if it
found nothing. -/
def check_scene_overlap (fs : FileSystem) (maxar_bounds : Option (List ℚ))
    (registry : Registry) (disaster_phase : Option String) (maxar_date : Int)
    (tol : ℚ) (dateTol : Nat) :
    Except Unit (Option (String × List (String × Path))) :=
  match maxar_bounds with
  | none => Except.error ()
  | some mb =>
    if mb.length ≠ 4 then Except.error ()
    else if registry.isEmpty then Except.ok none
    else
      match exactChipPass tol mb disaster_phase registry with
      | some hit => Except.ok (some hit)
      | none =>
        match containmentPass fs (1/10) dateTol mb disaster_phase maxar_date registry with
        | some hit => Except.ok (some hit)
        | none => Except.ok none

/-- Arguments of one `update_registry_atomic_fixed` /
`register_processed_scene` call.  The supplied `acquisition_date` is a
datetime or `None` in the source; `some` models a truthy supplied value,
abstracted as a `DateVal` (its parse-back outcome). -/
structure UpdateArgs where
  scene_id : String
  sentinel_bounds : List ℚ
  maxar_bounds : List ℚ
  processed_files : List (String × Path)
  maxar_id : String
  disaster_phase : Option String
  acquisition_date : Option DateVal
deriving DecidableEq, Repr

/-- Python truthiness of the supplied `disaster_phase` argument. -/
def truthyStr : Option String → Bool
  | some s => s != ""
  | none => false

/-- Value written into a fresh record for an `Option`-valued argument:
`None` is stored as JSON null, a value as itself. -/
def optToJField : Option String → JField String
  | none => JField.null
  | some s => JField.val s

/-- Same as `optToJField` for the acquisition-date argument. -/
def optDateToJField : Option DateVal → JField DateVal
  | none => JField.null
  | some d => JField.val d

/-- The chip record written by `update_registry_atomic_fixed`: bounds are
stored exactly as supplied (this path applies no rounding). -/
def newChipInfo (a : UpdateArgs) (now : String) : ChipInfo :=
  { bounds := some a.maxar_bounds
    processed_files := a.processed_files
    processing_date := now
    disaster_phase := a.disaster_phase }

/-- The source's
`if disaster_phase and 'disaster_phase' not in registry_copy[scene_id]`
write: the guard tests key presence, not value emptiness. -/
def setPhaseIfAbsent (info : SceneInfo) (p : Option String) : SceneInfo :=
  if truthyStr p && decide (info.disaster_phase = JField.absent) then
    { info with disaster_phase := JField.val (p.getD "") }
  else info

/-- The source's
`if acquisition_date_str and 'acquisition_date' not in registry_copy[scene_id]`
write, with the same key-presence guard. -/
def setDateIfAbsent (info : SceneInfo) (d : Option DateVal) : SceneInfo :=
  if d.isSome && decide (info.acquisition_date = JField.absent) then
    { info with acquisition_date := JField.val (d.getD none) }
  else info

/-- Update of an existing scene entry: ensure the `maxar_chips` key, apply
both conditional writes, then assign the chip record under `maxar_id`. -/
def updateExistingScene (info0 : SceneInfo) (a : UpdateArgs) (now : String) : SceneInfo :=
  let info3 := setDateIfAbsent
    (setPhaseIfAbsent { info0 with maxar_chips := some (info0.maxar_chips.getD []) }
      a.disaster_phase)
    a.acquisition_date
  { info3 with
    maxar_chips := some (setKey (info3.maxar_chips.getD []) a.maxar_id (newChipInfo a now)) }

/-- The fresh scene entry created when the scene id is new: every key is
written, `None` arguments being stored as JSON null. -/
def newSceneRecord (a : UpdateArgs) (now : String) : SceneInfo :=
  { sentinel_bounds := some a.sentinel_bounds
    processed_files := a.processed_files
    processing_date := now
    disaster_phase := optToJField a.disaster_phase
    acquisition_date := optDateToJField a.acquisition_date
    maxar_chips := some [(a.maxar_id, newChipInfo a now)] }

/-- The pure mutation performed by one attempt of
`update_registry_atomic_fixed` on the loaded registry: update the scene
entry in place if the scene id exists (writing `disaster_phase` and
`acquisition_date` only when their key is absent), otherwise append a
fresh scene entry; in both cases the chip record is assigned under
`maxar_id`. -/
def applyUpdate (reg : Registry) (a : UpdateArgs) (now : String) : Registry :=
  match lookupKey reg a.scene_id with
  | some info0 => setKey reg a.scene_id (updateExistingScene info0 a now)
  | none => reg ++ [(a.scene_id, newSceneRecord a now)]

/-- Environment seen by one retry attempt of the atomic update: whether the
load/mutate region raised (the exception is caught), the registry the
attempt loads, whether `fix_save_sar_registry` reported success, and the
registry contents produced by the verification re-load.  The verification
registry is an oracle rather than a function of the saved state so that
racing writers and out-of-band file changes between save and re-load are
covered. -/
structure AttemptWorld where
  loadRaises : Bool
  loaded : Registry
  saveOk : Bool
  verifyReg : Registry

/-- Python `scene_id in verification_registry`. -/
def sceneRegistered (reg : Registry) (sid : String) : Bool :=
  reg.any (fun p => p.1 == sid)

/-- The retry loop of `update_registry_atomic_fixed` over its attempt
sequence (the source runs `range(max_retries)` attempts, default 3, so the
list length is the retry bound).  An attempt whose load/mutate raises, or
whose save fails, or whose verification re-load lacks the scene id, falls
through to the next attempt; success returns `True`; an exhausted sequence
returns `False` without raising. -/
def update_registry_atomic_fixed (a : UpdateArgs) (now : String) :
    List AttemptWorld → Bool
  | [] => false
  | w :: rest =>
    if w.loadRaises then update_registry_atomic_fixed a now rest
    else
      if w.saveOk then
        if sceneRegistered w.verifyReg a.scene_id then true
        else update_registry_atomic_fixed a now rest
      else update_registry_atomic_fixed a now rest

/-- State of the persisted registry file seen by `fix_load_sar_registry`:
missing, present but not valid JSON, or a well-formed registry document. -/
inductive RegFile where
  | absent : RegFile
  | invalid : RegFile
  | wellFormed : Registry → RegFile
deriving DecidableEq, Repr

/-- Everything `fix_load_sar_registry` leaves behind: the returned registry,
the registry file after the call, and whether a timestamped backup copy of
a corrupt file was made. -/
structure LoadOutcome where
  registry : Registry
  fileAfter : RegFile
  backupMade : Bool
deriving DecidableEq, Repr

/-- Loader `fix_load_sar_registry`: a missing file is initialised by persisting an
empty document; a corrupt file is copied to a timestamped `.bak` file (the
original left in place) and an empty registry is returned; a well-formed
file is returned as parsed.  Every branch returns normally — all handlers
catch, which the total return type reflects. -/
def fix_load_sar_registry : RegFile → LoadOutcome
  | RegFile.absent =>
    { registry := [], fileAfter := RegFile.wellFormed [], backupMade := false }
  | RegFile.invalid =>
    { registry := [], fileAfter := RegFile.invalid, backupMade := true }
  | RegFile.wellFormed r =>
    { registry := r, fileAfter := RegFile.wellFormed r, backupMade := false }

/-- Decimal rounding claimed by the spec for stored chip bounds (6 decimal
places).  Stated with round-half-up; all inputs used against it below are
far from halfway points, where every rounding convention agrees with
Python's `round(x, 6)`. -/
def round6 (q : ℚ) : ℚ :=
  (Int.floor (q * 1000000 + 1/2) : ℚ) / 1000000

/-- The chip record written by `register_processed_scene`, which — unlike
`update_registry_atomic_fixed` — rounds each bound to 6 decimal places
before storing it. -/
def registerChipInfo (a : UpdateArgs) (now : String) : ChipInfo :=
  { bounds := some (a.maxar_bounds.map round6)
    processed_files := a.processed_files
    processing_date := now
    disaster_phase := a.disaster_phase }

/-- The stored bounds of chip `mid` of scene `sid`, if present. -/
def chipBoundsStored (reg : Registry) (sid mid : String) : Option (List ℚ) :=
  ((lookupKey reg sid).bind (fun info => info.maxar_chips)).bind
    (fun chips => (lookupKey chips mid).bind (fun ci => ci.bounds))

/-- The stored `disaster_phase` field of scene `sid`, if the scene exists. -/
def phaseStored (reg : Registry) (sid : String) : Option (JField String) :=
  (lookupKey reg sid).map (fun i => i.disaster_phase)

/-- The stored `acquisition_date` field of scene `sid`, if the scene exists. -/
def dateStored (reg : Registry) (sid : String) : Option (JField DateVal) :=
  (lookupKey reg sid).map (fun i => i.acquisition_date)

/-- Spec-side reading of the exact-chip pass, following the claim's words:
the chips of every scene not excluded by the phase filter, in registry
insertion order, scenes then chips, each paired with its scene id. -/
def eligibleChips (reqPhase : Option String) : Registry → List (String × ChipInfo)
  | [] => []
  | (sid, info) :: rest =>
    if phaseSkip reqPhase info.disaster_phase then eligibleChips reqPhase rest
    else ((info.maxar_chips.getD []).map (fun c => (sid, c.2))) ++ eligibleChips reqPhase rest

/-- Spec-side chip hit, following the claim's words: all four bound
components differ from the corresponding request components by no more
than the coordinate tolerance. -/
def specChipHit (tol : ℚ) (mb : List ℚ) (ci : ChipInfo) : Bool :=
  match ci.bounds with
  | some cb => decide (cb.length = 4 ∧ ∀ i : Nat, i < 4 → |mb.getD i 0 - cb.getD i 0| ≤ tol)
  | none => false

/-- Spec-side reading of the exact-chip pass result: the first eligible
chip, in registry insertion order, whose bounds are all within tolerance
of the request's; its outputs are returned with its parent scene's id. -/
def specExactMatch (tol : ℚ) (mb : List ℚ) (reqPhase : Option String) (reg : Registry) :
    Option (String × List (String × Path)) :=
  ((eligibleChips reqPhase reg).find? (fun sc => specChipHit tol mb sc.2)).map
    (fun sc => (sc.1, sc.2.processed_files))

/-- Filesystem on which no path exists. -/
def fsNone : FileSystem := fun _ => { onDisk := false, size := 0, raster := none }

/-- Filesystem on which every path is a healthy single-band raster. -/
def fsAll : FileSystem := fun _ => { onDisk := true, size := 100, raster := some (1, 10, 10) }

/-- Scene fixture whose footprint is stored the way the pipeline writes it:
`get_sentinel_scene_extents` returns `(min_lon, min_lat, max_lon, max_lat)`,
here west 10, south 40, east 12, north 42. -/
def sceneA : SceneInfo :=
  { sentinel_bounds := some [10, 40, 12, 42]
    processed_files := [("vv", "a_vv.tif"), ("vh", "a_vh.tif")]
    processing_date := ""
    disaster_phase := JField.val "pre_disaster"
    acquisition_date := JField.val (some 0)
    maxar_chips := some [] }

/-- One-scene registry holding `sceneA`. -/
def regA : Registry := [("S1", sceneA)]

/-- Request bounds (west 10.5, south 40.5, east 11, north 41), strictly
inside `sceneA`'s footprint. -/
def mbA : List ℚ := [21/2, 81/2, 11, 41]

/-- Chip fixture whose only referenced file is absent from `fsNone`. -/
def chipB : ChipInfo :=
  { bounds := some [1, 2, 3, 4]
    processed_files := [("clipped", "gone.tif")]
    processing_date := ""
    disaster_phase := some "pre_disaster" }

/-- Scene fixture carrying `chipB`. -/
def sceneB : SceneInfo :=
  { sentinel_bounds := some [0, 0, 5, 5]
    processed_files := [("vv", "b_vv.tif"), ("vh", "b_vh.tif")]
    processing_date := ""
    disaster_phase := JField.val "pre_disaster"
    acquisition_date := JField.null
    maxar_chips := some [("m1", chipB)] }

/-- One-scene registry holding `sceneB`. -/
def regB : Registry := [("S2", sceneB)]

/-- Scene fixture with the symmetric footprint of the spec's concrete
scenario (10,10,12,12), so the containment test fires. -/
def sceneBV : SceneInfo :=
  { sentinel_bounds := some [10, 10, 12, 12]
    processed_files := [("vv", "bv_vv.tif"), ("vh", "bv_vh.tif")]
    processing_date := ""
    disaster_phase := JField.val "pre_disaster"
    acquisition_date := JField.val (some 10)
    maxar_chips := some [] }

/-- One-scene registry holding `sceneBV`. -/
def regBV : Registry := [("S2V", sceneBV)]

/-- Chip fixture for the exact-chip-pass witness. -/
def chipC : ChipInfo :=
  { bounds := some [5, 6, 7, 8]
    processed_files := [("clipped", "c.tif")]
    processing_date := ""
    disaster_phase := some "post_disaster" }

/-- Scene fixture carrying `chipC`, tagged post-disaster. -/
def sceneC : SceneInfo :=
  { sentinel_bounds := some [0, 0, 20, 20]
    processed_files := [("vv", "c_vv.tif"), ("vh", "c_vh.tif")]
    processing_date := ""
    disaster_phase := JField.val "post_disaster"
    acquisition_date := JField.absent
    maxar_chips := some [("m3", chipC)] }

/-- One-scene registry holding `sceneC`. -/
def regC : Registry := [("S3", sceneC)]

/-- Scene fixture whose `disaster_phase` and `acquisition_date` keys are
present with JSON null — exactly what a fresh entry created with
`disaster_phase=None, acquisition_date=None` looks like after a
save/load round-trip. -/
def sceneD : SceneInfo :=
  { sentinel_bounds := some [0, 0, 1, 1]
    processed_files := []
    processing_date := ""
    disaster_phase := JField.null
    acquisition_date := JField.null
    maxar_chips := some [] }

/-- One-scene registry holding `sceneD`. -/
def regD : Registry := [("S5", sceneD)]

/-- Update fixture against `regD` supplying a non-empty phase and a date. -/
def argsD : UpdateArgs :=
  { scene_id := "S5"
    sentinel_bounds := [0, 0, 1, 1]
    maxar_bounds := [1, 1, 2, 2]
    processed_files := []
    maxar_id := "m5"
    disaster_phase := some "pre_disaster"
    acquisition_date := some (some 5) }

/-- Scene fixture whose `disaster_phase` and `acquisition_date` keys are
absent altogether. -/
def sceneDW : SceneInfo :=
  { sentinel_bounds := some [0, 0, 1, 1]
    processed_files := []
    processing_date := ""
    disaster_phase := JField.absent
    acquisition_date := JField.absent
    maxar_chips := some [] }

/-- One-scene registry holding `sceneDW`. -/
def regDW : Registry := [("S5W", sceneDW)]

/-- Update fixture against `regDW` supplying a non-empty phase and a date. -/
def argsDW : UpdateArgs :=
  { scene_id := "S5W"
    sentinel_bounds := [0, 0, 1, 1]
    maxar_bounds := [1, 1, 2, 2]
    processed_files := []
    maxar_id := "m5w"
    disaster_phase := some "post_disaster"
    acquisition_date := some (some 7) }

/-- Update fixture whose bounds carry 7 decimal places, so 6-decimal
rounding would change them. -/
def argsE : UpdateArgs :=
  { scene_id := "S9"
    sentinel_bounds := [0, 0, 1, 1]
    maxar_bounds := [1234567/10000000, 0, 0, 0]
    processed_files := [("clipped", "e.tif")]
    maxar_id := "m9"
    disaster_phase := none
    acquisition_date := none }

/-- Attempt fixture whose save succeeds and whose verification re-load
contains the expected scene. -/
def attemptOk : AttemptWorld :=
  { loadRaises := false
    loaded := []
    saveOk := true
    verifyReg := [("S5", sceneD)] }

/-- Attempt fixture whose save fails. -/
def attemptBad : AttemptWorld :=
  { loadRaises := false
    loaded := []
    saveOk := false
    verifyReg := [] }

/-- After an in-place `setKey` replacement, finding the key yields the
replacement pair. -/
theorem find?_map_set {α : Type} (l : List (String × α)) (k : String) (v : α)
    (h : l.any (fun p => p.1 == k) = true) :
    (l.map (fun p => if p.1 == k then (k, v) else p)).find? (fun p => p.1 == k) =
      some (k, v) := by
  induction l with
  | nil => simp at h
  | cons p rest ih =>
    rw [List.map_cons]
    by_cases hp : (p.1 == k) = true
    · rw [if_pos hp, List.find?_cons_of_pos]
      simp
    · rw [if_neg hp, List.find?_cons_of_neg]
      · refine ih ?_
        simp only [List.any_cons, Bool.or_eq_true] at h
        cases h with
        | inl h0 => exact absurd h0 hp
        | inr h0 => exact h0
      · exact hp

/-- If no pair carries the key, `find?` on that key fails. -/
theorem find?_eq_none_of_any_false {α : Type} (l : List (String × α)) (k : String)
    (h : l.any (fun p => p.1 == k) = false) :
    l.find? (fun p => p.1 == k) = none := by
  rw [List.find?_eq_none]
  intro x hx hpx
  have h1 : l.any (fun p => p.1 == k) = true := List.any_eq_true.mpr ⟨x, hx, hpx⟩
  rw [h1] at h
  exact absurd h (by decide)

/-- Dict assignment followed by lookup of the same key returns the
assigned value, on both the replace and the append branch. -/
theorem lookupKey_setKey_self {α : Type} (l : List (String × α)) (k : String) (v : α) :
    lookupKey (setKey l k v) k = some v := by
  unfold setKey lookupKey
  by_cases h : l.any (fun p => p.1 == k) = true
  · rw [if_pos h, find?_map_set l k v h]
  · rw [if_neg h, List.find?_append,
      find?_eq_none_of_any_false l k (Bool.eq_false_iff.mpr h)]
    simp [List.find?_cons]

/-- The four explicit tolerance comparisons of the source coincide with
the claim's "all four components within tolerance" reading. -/
theorem chipBoundsMatch_iff (tol : ℚ) (mb cb : List ℚ) :
    chipBoundsMatch tol mb cb = true ↔
      ∀ i : Nat, i < 4 → |mb.getD i 0 - cb.getD i 0| ≤ tol := by
  unfold chipBoundsMatch
  simp only [Bool.and_eq_true, decide_eq_true_eq]
  constructor
  · rintro ⟨⟨⟨h0, h1⟩, h2⟩, h3⟩ i hi
    interval_cases i <;> assumption
  · intro h
    exact ⟨⟨⟨h 0 (by norm_num), h 1 (by norm_num)⟩, h 2 (by norm_num)⟩, h 3 (by norm_num)⟩

/-- First-match search hits a head satisfying the predicate. -/
theorem find?_cons_hit {α : Type} (p : α → Bool) (a : α) (l : List α)
    (h : p a = true) : (a :: l).find? p = some a :=
  List.find?_cons_of_pos l h

/-- First-match search passes over a head failing the predicate. -/
theorem find?_cons_miss {α : Type} (p : α → Bool) (a : α) (l : List α)
    (h : p a = false) : (a :: l).find? p = l.find? p :=
  List.find?_cons_of_neg l (by rw [h]; exact Bool.false_ne_true)

/-- The exact-chip inner loop is a first-match search over the scene's
chips with the spec-side hit predicate. -/
theorem findMatchingChip_eq_spec (tol : ℚ) (mb : List ℚ)
    (chips : List (String × ChipInfo)) :
    findMatchingChip tol mb chips =
      (chips.find? (fun c => specChipHit tol mb c.2)).map (fun c => c.2.processed_files) := by
  induction chips with
  | nil => rfl
  | cons c rest ih =>
    obtain ⟨cid, ci⟩ := c
    unfold findMatchingChip
    split
    next hb =>
      rw [find?_cons_miss (fun c => specChipHit tol mb c.2) (cid, ci) rest
        (by show specChipHit tol mb ci = false; simp [specChipHit, hb])]
      exact ih
    next cb hb =>
      by_cases hlen : cb.length = 4
      · rw [if_neg (fun hc => hc hlen)]
        by_cases hm : chipBoundsMatch tol mb cb = true
        · rw [if_pos hm, find?_cons_hit (fun c => specChipHit tol mb c.2) (cid, ci) rest
            (by show specChipHit tol mb ci = true
                simp only [specChipHit, hb, decide_eq_true_eq]
                exact ⟨hlen, (chipBoundsMatch_iff tol mb cb).mp hm⟩)]
          rfl
        · rw [if_neg hm, find?_cons_miss (fun c => specChipHit tol mb c.2) (cid, ci) rest
            (by show specChipHit tol mb ci = false
                simp only [specChipHit, hb, decide_eq_false_iff_not, not_and]
                intro _ hall
                exact hm ((chipBoundsMatch_iff tol mb cb).mpr hall))]
          exact ih
      · rw [if_pos hlen, find?_cons_miss (fun c => specChipHit tol mb c.2) (cid, ci) rest
          (by show specChipHit tol mb ci = false
              simp only [specChipHit, hb, decide_eq_false_iff_not, not_and]
              intro hc
              exact absurd hc hlen)]
        exact ih

/-- The exact-chip pass of the source computes exactly the spec-side first
eligible in-tolerance chip. -/
theorem exactChipPass_eq_spec (tol : ℚ) (mb : List ℚ) (reqPhase : Option String)
    (reg : Registry) :
    exactChipPass tol mb reqPhase reg = specExactMatch tol mb reqPhase reg := by
  induction reg with
  | nil => rfl
  | cons s rest ih =>
    obtain ⟨sid, info⟩ := s
    have hcomp : ((fun sc : String × ChipInfo => specChipHit tol mb sc.2) ∘
        (fun c : String × ChipInfo => (sid, c.2))) =
        (fun c : String × ChipInfo => specChipHit tol mb c.2) := rfl
    unfold exactChipPass specExactMatch eligibleChips
    by_cases hskip : phaseSkip reqPhase info.disaster_phase = true
    · rw [if_pos hskip, if_pos hskip]
      exact ih
    · rw [if_neg hskip, if_neg hskip, List.find?_append]
      split
      next hc =>
        rw [hc]
        simp only [Option.getD_none, List.map_nil, List.find?_nil, Option.none_or]
        exact ih
      next chips hc =>
        rw [hc]
        simp only [Option.getD_some]
        rw [List.find?_map, hcomp]
        split
        next files hf =>
          rw [findMatchingChip_eq_spec] at hf
          obtain ⟨c0, hc0, hcf⟩ := Option.map_eq_some'.mp hf
          rw [hc0]
          show some (sid, files) = some (sid, c0.2.processed_files)
          rw [hcf]
        next hf =>
          rw [findMatchingChip_eq_spec] at hf
          have hnone : chips.find? (fun c => specChipHit tol mb c.2) = none := by
            cases h0 : chips.find? (fun c => specChipHit tol mb c.2) with
            | none => rfl
            | some c0 => rw [h0] at hf; simp at hf
          rw [hnone]
          simp only [Option.map_none', Option.none_or]
          exact ih

/-- A scene returned by the exact-chip pass was present in the registry
and passed the phase filter. -/
theorem exactChipPass_mem_phase (tol : ℚ) (mb : List ℚ) (reqPhase : Option String)
    (reg : Registry) (sid : String) (files : List (String × Path))
    (h : exactChipPass tol mb reqPhase reg = some (sid, files)) :
    ∃ info, (sid, info) ∈ reg ∧ phaseSkip reqPhase info.disaster_phase = false := by
  induction reg with
  | nil => simp [exactChipPass] at h
  | cons s rest ih =>
    obtain ⟨sid0, info0⟩ := s
    unfold exactChipPass at h
    split at h
    next hskip =>
      obtain ⟨i, hm, hp⟩ := ih h
      exact ⟨i, List.mem_cons_of_mem _ hm, hp⟩
    next hskip =>
      split at h
      next hc =>
        obtain ⟨i, hm, hp⟩ := ih h
        exact ⟨i, List.mem_cons_of_mem _ hm, hp⟩
      next chips hc =>
        split at h
        next files0 hf =>
          have hpair : (sid0, files0) = (sid, files) := Option.some.inj h
          have hsid : sid0 = sid := congrArg Prod.fst hpair
          subst hsid
          exact ⟨info0, List.mem_cons_self _ _, Bool.eq_false_iff.mpr hskip⟩
        next hf =>
          obtain ⟨i, hm, hp⟩ := ih h
          exact ⟨i, List.mem_cons_of_mem _ hm, hp⟩

/-- A scene returned by the containment pass was present in the registry
and passed the phase filter. -/
theorem containmentPass_mem_phase (fs : FileSystem) (buf : ℚ) (dateTol : Nat)
    (mb : List ℚ) (reqPhase : Option String) (mdate : Int) (reg : Registry)
    (sid : String) (files : List (String × Path))
    (h : containmentPass fs buf dateTol mb reqPhase mdate reg = some (sid, files)) :
    ∃ info, (sid, info) ∈ reg ∧ phaseSkip reqPhase info.disaster_phase = false := by
  induction reg with
  | nil => simp [containmentPass] at h
  | cons s rest ih =>
    obtain ⟨sid0, info0⟩ := s
    unfold containmentPass at h
    split at h
    next hskip =>
      obtain ⟨i, hm, hp⟩ := ih h
      exact ⟨i, List.mem_cons_of_mem _ hm, hp⟩
    next hskip =>
      split at h
      next hd =>
        obtain ⟨i, hm, hp⟩ := ih h
        exact ⟨i, List.mem_cons_of_mem _ hm, hp⟩
      next hd =>
        split at h
        next hsb =>
          obtain ⟨i, hm, hp⟩ := ih h
          exact ⟨i, List.mem_cons_of_mem _ hm, hp⟩
        next sb hsb =>
          split at h
          next hlen =>
            obtain ⟨i, hm, hp⟩ := ih h
            exact ⟨i, List.mem_cons_of_mem _ hm, hp⟩
          next hlen =>
            split at h
            next hcont =>
              split at h
              next hval =>
                have hpair : (sid0, info0.processed_files) = (sid, files) :=
                  Option.some.inj h
                have hsid : sid0 = sid := congrArg Prod.fst hpair
                subst hsid
                exact ⟨info0, List.mem_cons_self _ _, Bool.eq_false_iff.mpr hskip⟩
              next hval =>
                obtain ⟨i, hm, hp⟩ := ih h
                exact ⟨i, List.mem_cons_of_mem _ hm, hp⟩
            next hcont =>
              obtain ⟨i, hm, hp⟩ := ih h
              exact ⟨i, List.mem_cons_of_mem _ hm, hp⟩

/-- Whenever the containment pass returns a scene's outputs, those outputs
passed the file-validation loop on the same filesystem. -/
theorem containmentPass_validated (fs : FileSystem) (buf : ℚ) (dateTol : Nat)
    (mb : List ℚ) (reqPhase : Option String) (mdate : Int) (reg : Registry)
    (sid : String) (files : List (String × Path))
    (h : containmentPass fs buf dateTol mb reqPhase mdate reg = some (sid, files)) :
    validateFiles fs files = true := by
  induction reg with
  | nil => simp [containmentPass] at h
  | cons s rest ih =>
    obtain ⟨sid0, info0⟩ := s
    unfold containmentPass at h
    split at h
    next hskip => exact ih h
    next hskip =>
      split at h
      next hd => exact ih h
      next hd =>
        split at h
        next hsb => exact ih h
        next sb hsb =>
          split at h
          next hlen => exact ih h
          next hlen =>
            split at h
            next hcont =>
              split at h
              next hval =>
                have hpair : (sid0, info0.processed_files) = (sid, files) :=
                  Option.some.inj h
                have hfiles : info0.processed_files = files := congrArg Prod.snd hpair
                rw [hfiles] at hval
                exact hval
              next hval => exact ih h
            next hcont => exact ih h

/-- The conditional phase write leaves the acquisition date alone. -/
theorem setPhaseIfAbsent_date (i : SceneInfo) (p : Option String) :
    (setPhaseIfAbsent i p).acquisition_date = i.acquisition_date := by
  unfold setPhaseIfAbsent
  split <;> rfl

/-- The conditional phase write leaves the chips alone. -/
theorem setPhaseIfAbsent_chips (i : SceneInfo) (p : Option String) :
    (setPhaseIfAbsent i p).maxar_chips = i.maxar_chips := by
  unfold setPhaseIfAbsent
  split <;> rfl

/-- The conditional date write leaves the phase alone. -/
theorem setDateIfAbsent_phase (i : SceneInfo) (d : Option DateVal) :
    (setDateIfAbsent i d).disaster_phase = i.disaster_phase := by
  unfold setDateIfAbsent
  split <;> rfl

/-- A present `disaster_phase` key is never changed by the conditional
write, whatever its value. -/
theorem setPhaseIfAbsent_keep (i : SceneInfo) (p : Option String)
    (h : i.disaster_phase ≠ JField.absent) :
    (setPhaseIfAbsent i p).disaster_phase = i.disaster_phase := by
  unfold setPhaseIfAbsent
  rw [if_neg]
  intro hc
  rw [Bool.and_eq_true] at hc
  exact h (of_decide_eq_true hc.2)

/-- An absent `disaster_phase` key receives a truthy supplied value. -/
theorem setPhaseIfAbsent_set (i : SceneInfo) (p : Option String)
    (h : i.disaster_phase = JField.absent) (ht : truthyStr p = true) :
    (setPhaseIfAbsent i p).disaster_phase = JField.val (p.getD "") := by
  unfold setPhaseIfAbsent
  rw [if_pos]
  rw [ht, h]
  simp

/-- A present `acquisition_date` key is never changed by the conditional
write, whatever its value. -/
theorem setDateIfAbsent_keep (i : SceneInfo) (d : Option DateVal)
    (h : i.acquisition_date ≠ JField.absent) :
    (setDateIfAbsent i d).acquisition_date = i.acquisition_date := by
  unfold setDateIfAbsent
  rw [if_neg]
  intro hc
  rw [Bool.and_eq_true] at hc
  exact h (of_decide_eq_true hc.2)

/-- An absent `acquisition_date` key receives a supplied value. -/
theorem setDateIfAbsent_set (i : SceneInfo) (d : Option DateVal)
    (h : i.acquisition_date = JField.absent) (ht : d.isSome = true) :
    (setDateIfAbsent i d).acquisition_date = JField.val (d.getD none) := by
  unfold setDateIfAbsent
  rw [if_pos]
  rw [ht, h]
  simp

/-- If a key has no entry, `lookupKey` of an appended singleton with that
key yields the appended value. -/
theorem lookupKey_append_of_none {α : Type} (l : List (String × α)) (k : String) (v : α)
    (h : lookupKey l k = none) : lookupKey (l ++ [(k, v)]) k = some v := by
  have hf : l.find? (fun p => p.1 == k) = none := by
    cases hf0 : l.find? (fun p => p.1 == k) with
    | none => rfl
    | some p =>
      unfold lookupKey at h
      rw [hf0] at h
      exact Option.noConfusion h
  unfold lookupKey
  rw [List.find?_append, hf]
  simp [List.find?_cons]

/-- Evaluation equation of the matcher at missing bounds. -/
theorem check_scene_overlap_none (fs : FileSystem) (reg : Registry)
    (reqPhase : Option String) (mdate : Int) (tol : ℚ) (dateTol : Nat) :
    check_scene_overlap fs none reg reqPhase mdate tol dateTol = Except.error () := rfl

/-- Evaluation equation of the matcher at present bounds. -/
theorem check_scene_overlap_some (fs : FileSystem) (mb : List ℚ) (reg : Registry)
    (reqPhase : Option String) (mdate : Int) (tol : ℚ) (dateTol : Nat) :
    check_scene_overlap fs (some mb) reg reqPhase mdate tol dateTol =
      (if mb.length ≠ 4 then Except.error ()
       else if reg.isEmpty then Except.ok none
       else
         match exactChipPass tol mb reqPhase reg with
         | some hit => Except.ok (some hit)
         | none =>
           match containmentPass fs (1/10) dateTol mb reqPhase mdate reg with
           | some hit => Except.ok (some hit)
           | none => Except.ok none) := rfl

/-- For well-shaped request bounds the matcher always returns normally,
whatever the two passes decide. -/
theorem check_ok_of_len4 (fs : FileSystem) (mb : List ℚ) (reg : Registry)
    (reqPhase : Option String) (mdate : Int) (tol : ℚ) (dateTol : Nat)
    (hlen : mb.length = 4) :
    ∃ r, check_scene_overlap fs (some mb) reg reqPhase mdate tol dateTol =
      Except.ok r := by
  rw [check_scene_overlap_some, if_neg (fun hc => hc hlen)]
  by_cases he : reg.isEmpty = true
  · rw [if_pos he]
    exact ⟨none, rfl⟩
  · rw [if_neg he]
    cases h1 : exactChipPass tol mb reqPhase reg with
    | some hit => exact ⟨some hit, rfl⟩
    | none =>
      cases h2 : containmentPass fs (1/10) dateTol mb reqPhase mdate reg with
      | some hit => exact ⟨some hit, rfl⟩
      | none => exact ⟨none, rfl⟩

/-- C10: for every registry, phase and date, calling the matcher with
request bounds that are `None` or do not have exactly four components
raises `ValueError` before any registry entry is examined (the result is
independent of the registry), and a normal return — in particular the
no-match result — occurs exactly for four-component bounds. -/
theorem c10_invalid_bounds_raise (fs : FileSystem) (mb : Option (List ℚ))
    (reg : Registry) (reqPhase : Option String) (mdate : Int) (tol : ℚ)
    (dateTol : Nat) :
    (∃ r, check_scene_overlap fs mb reg reqPhase mdate tol dateTol = Except.ok r) ↔
      ∃ l, mb = some l ∧ l.length = 4 := by
  cases mb with
  | none =>
    constructor
    · rintro ⟨r, hr⟩
      exact Except.noConfusion hr
    · rintro ⟨l, hl, _⟩
      exact Option.noConfusion hl
  | some l =>
    by_cases hlen : l.length = 4
    · constructor
      · intro _
        exact ⟨l, rfl, hlen⟩
      · intro _
        exact check_ok_of_len4 fs l reg reqPhase mdate tol dateTol hlen
    · constructor
      · rintro ⟨r, hr⟩
        rw [check_scene_overlap_some, if_pos hlen] at hr
        exact Except.noConfusion hr
      · rintro ⟨l0, hl0, hlen0⟩
        have he : l0 = l := (Option.some.inj hl0).symm
        subst he
        exact absurd hlen0 hlen

/-- Witness for C10: well-shaped bounds return normally even on the empty
registry. -/
theorem c10_invalid_bounds_raise_witness :
    ∃ r, check_scene_overlap fsNone (some [0, 0, 0, 0]) [] none 0 (1/100) 30 =
      Except.ok r :=
  (c10_invalid_bounds_raise fsNone (some [0, 0, 0, 0]) [] none 0 (1/100) 30).mpr
    ⟨[0, 0, 0, 0], rfl, rfl⟩

/-- C3: in the exact-chip pass, for every registry and every well-shaped
request, if the spec-side first matching chip — scanning scenes in
registry insertion order, chips in insertion order within a scene,
skipping scenes excluded by the phase filter, and matching when all four
bound components are within the coordinate tolerance — is some chip, then
`check_scene_overlap` returns exactly that chip's parent scene id and
outputs.  The conclusion holds for every filesystem, so the containment
pass (the only consumer of the filesystem) is never reached. -/
theorem c3_exact_chip_pass_first (fs : FileSystem) (tol : ℚ) (dateTol : Nat)
    (mb : List ℚ) (reqPhase : Option String) (mdate : Int) (reg : Registry)
    (sid : String) (files : List (String × Path))
    (hlen : mb.length = 4)
    (hmatch : specExactMatch tol mb reqPhase reg = some (sid, files)) :
    check_scene_overlap fs (some mb) reg reqPhase mdate tol dateTol =
      Except.ok (some (sid, files)) := by
  have hpass : exactChipPass tol mb reqPhase reg = some (sid, files) := by
    rw [exactChipPass_eq_spec]
    exact hmatch
  have hne : reg.isEmpty = false := by
    cases reg with
    | nil => exact absurd hpass (by simp [exactChipPass])
    | cons s rest => rfl
  rw [check_scene_overlap_some, if_neg (fun hc => hc hlen),
    if_neg (by rw [hne]; exact Bool.false_ne_true), hpass]

/-- Witness for C3: a registered chip with bounds equal to the request's
is returned with its scene id, on a filesystem where nothing exists. -/
theorem c3_exact_chip_pass_first_witness :
    check_scene_overlap fsNone (some [5, 6, 7, 8]) regC (some "post_disaster") 0
      (1/100) 30 = Except.ok (some ("S3", [("clipped", "c.tif")])) :=
  c3_exact_chip_pass_first fsNone (1/100) 30 [5, 6, 7, 8] (some "post_disaster") 0
    regC "S3" [("clipped", "c.tif")] rfl (by with_unfolding_all decide)

/-- C1 (evaluation at the failing input): `sceneA` stores its footprint in
the pipeline's writer order (west 10, south 40, east 12, north 42); the
request bounds (west 10.5, south 40.5, east 11, north 41) lie strictly
inside that footprint even without the 0.1-degree buffer; the phase and
date filters pass and the validation gate accepts every file — yet
`check_scene_overlap` returns no match, because it reads the stored
bounds as latitude-first and therefore tests containment against a
transposed box. -/
theorem c1_containment_transposed_eval :
    ((21/2 : ℚ) ≥ 10 - 1/10 ∧ (11 : ℚ) ≤ 12 + 1/10 ∧
      (81/2 : ℚ) ≥ 40 - 1/10 ∧ (41 : ℚ) ≤ 42 + 1/10) ∧
    phaseSkip (some "pre_disaster") sceneA.disaster_phase = false ∧
    dateSkip 30 0 sceneA.acquisition_date = false ∧
    validateFiles fsAll sceneA.processed_files = true ∧
    check_scene_overlap fsAll (some mbA) regA (some "pre_disaster") 0 (1/100) 30 =
      Except.ok none := by
  refine ⟨⟨?_, ?_, ?_, ?_⟩, ?_, ?_, ?_, ?_⟩ <;>
    first
    | with_unfolding_all decide
    | with_unfolding_all rfl

/-- C2 (counterexample): the exact-chip pass performs no file validation —
a registered chip whose only referenced output file does not exist on
disk is still returned as a match, not turned into the no-match result
the claim requires. -/
theorem c2_stale_chip_counterexample :
    (fsNone "gone.tif").onDisk = false ∧
    check_scene_overlap fsNone (some [1, 2, 3, 4]) regB (some "pre_disaster") 0
      (1/100) 30 = Except.ok (some ("S2", [("clipped", "gone.tif")])) := by
  refine ⟨rfl, ?_⟩
  with_unfolding_all rfl

/-- C2 (amended): validation applies only in the containment pass and only
to the candidate scene's `vv`/`vh` files: whenever the containment pass
returns a scene's outputs those files pass the gate on the same
filesystem (a candidate with a missing, empty or unreadable `vv`/`vh`
file is skipped and scanning continues); and for well-shaped bounds the
matcher always returns normally — a stale candidate yields no-match, not
an exception. -/
theorem c2_amended_validation_gate :
    (∀ (fs : FileSystem) (buf : ℚ) (dateTol : Nat) (mb : List ℚ)
        (reqPhase : Option String) (mdate : Int) (reg : Registry)
        (sid : String) (files : List (String × Path)),
      containmentPass fs buf dateTol mb reqPhase mdate reg = some (sid, files) →
        validateFiles fs files = true) ∧
    (∀ (fs : FileSystem) (mb : List ℚ) (reg : Registry) (reqPhase : Option String)
        (mdate : Int) (tol : ℚ) (dateTol : Nat), mb.length = 4 →
      ∃ r, check_scene_overlap fs (some mb) reg reqPhase mdate tol dateTol =
        Except.ok r) := by
  constructor
  · intro fs buf dateTol mb reqPhase mdate reg sid files h
    exact containmentPass_validated fs buf dateTol mb reqPhase mdate reg sid files h
  · intro fs mb reg reqPhase mdate tol dateTol hlen
    exact check_ok_of_len4 fs mb reg reqPhase mdate tol dateTol hlen

/-- Witness for C2 (amended), at the spec's concrete scenario: a
containment hit on scene `S2V` only comes with its `vv`/`vh` files
validating, and the same request returns normally. -/
theorem c2_amended_validation_gate_witness :
    validateFiles fsAll [("vv", "bv_vv.tif"), ("vh", "bv_vh.tif")] = true ∧
    (∃ r, check_scene_overlap fsAll (some [21/2, 21/2, 11, 11]) regBV
      (some "pre_disaster") 0 (1/100) 30 = Except.ok r) :=
  ⟨c2_amended_validation_gate.1 fsAll (1/10) 30 [21/2, 21/2, 11, 11]
      (some "pre_disaster") 0 regBV "S2V" [("vv", "bv_vv.tif"), ("vh", "bv_vh.tif")]
      (by with_unfolding_all decide),
   c2_amended_validation_gate.2 fsAll [21/2, 21/2, 11, 11] regBV
      (some "pre_disaster") 0 (1/100) 30 rfl⟩

/-- C4: the atomic registry update returns `True` exactly when some attempt
within the retry bound loads and mutates without raising, persists
successfully, and the verification re-load contains the expected scene
id; after exhausting every attempt without such a success it returns
`False` to the caller instead of raising.  The attempt list is the
sequence of `range(max_retries)` environments, so its length is the
retry bound (default 3). -/
theorem c4_atomic_update_retry (a : UpdateArgs) (now : String)
    (attempts : List AttemptWorld) :
    update_registry_atomic_fixed a now attempts = true ↔
      ∃ w ∈ attempts, w.loadRaises = false ∧ w.saveOk = true ∧
        sceneRegistered w.verifyReg a.scene_id = true := by
  induction attempts with
  | nil => simp [update_registry_atomic_fixed]
  | cons w rest ih =>
    unfold update_registry_atomic_fixed
    by_cases hl : w.loadRaises = true
    · rw [if_pos hl, ih]
      constructor
      · rintro ⟨w0, hm, hw⟩
        exact ⟨w0, List.mem_cons_of_mem _ hm, hw⟩
      · rintro ⟨w0, hm, h1, h2, h3⟩
        rcases List.mem_cons.mp hm with he | hm0
        · subst he
          rw [hl] at h1
          exact absurd h1 (by decide)
        · exact ⟨w0, hm0, h1, h2, h3⟩
    · rw [if_neg hl]
      by_cases hs : w.saveOk = true
      · rw [if_pos hs]
        by_cases hv : sceneRegistered w.verifyReg a.scene_id = true
        · rw [if_pos hv]
          constructor
          · intro _
            exact ⟨w, List.mem_cons_self _ _, Bool.eq_false_iff.mpr hl, hs, hv⟩
          · intro _
            rfl
        · rw [if_neg hv, ih]
          constructor
          · rintro ⟨w0, hm, hw⟩
            exact ⟨w0, List.mem_cons_of_mem _ hm, hw⟩
          · rintro ⟨w0, hm, h1, h2, h3⟩
            rcases List.mem_cons.mp hm with he | hm0
            · subst he
              exact absurd h3 hv
            · exact ⟨w0, hm0, h1, h2, h3⟩
      · rw [if_neg hs, ih]
        constructor
        · rintro ⟨w0, hm, hw⟩
          exact ⟨w0, List.mem_cons_of_mem _ hm, hw⟩
        · rintro ⟨w0, hm, h1, h2, h3⟩
          rcases List.mem_cons.mp hm with he | hm0
          · subst he
            exact absurd h2 hs
          · exact ⟨w0, hm0, h1, h2, h3⟩

/-- Witness for C4: with a first attempt whose save fails and a second
attempt that saves and verifies, the update reports success. -/
theorem c4_atomic_update_retry_witness :
    update_registry_atomic_fixed argsD "t" [attemptBad, attemptOk] = true :=
  (c4_atomic_update_retry argsD "t" [attemptBad, attemptOk]).mpr
    ⟨attemptOk, List.mem_cons_of_mem _ (List.mem_cons_self _ _), rfl, rfl, rfl⟩

/-- C5 (counterexample): scene `S5` stores `disaster_phase: null` and
`acquisition_date: null` — unset values whose keys are present, exactly
what a fresh entry created with `disaster_phase=None` looks like after a
save/load round-trip.  An update supplying a non-empty phase and a date
leaves both fields null: the source guards on key presence, so an
unset-but-present field is never written, contradicting the claim's
"if it is unset a non-empty value supplied by the update is written". -/
theorem c5_null_fields_not_set_counterexample :
    truthyStr argsD.disaster_phase = true ∧
    argsD.acquisition_date.isSome = true ∧
    phaseStored regD "S5" = some JField.null ∧
    phaseStored (applyUpdate regD argsD "t") "S5" = some JField.null ∧
    dateStored (applyUpdate regD argsD "t") "S5" = some JField.null := by
  refine ⟨rfl, rfl, rfl, ?_, ?_⟩ <;> with_unfolding_all rfl

/-- C5 (amended): for every existing scene and every update against it, a
`disaster_phase` or `acquisition_date` key that is present in the record
— whatever its value, null included — is never overwritten; a truthy
supplied value is written exactly when the key is absent from the record
("unset" in the code means the key is missing, not that the value is
empty). -/
theorem c5_amended_first_write_wins (reg : Registry) (a : UpdateArgs) (now : String)
    (info : SceneInfo) (h : lookupKey reg a.scene_id = some info) :
    (info.disaster_phase ≠ JField.absent →
      phaseStored (applyUpdate reg a now) a.scene_id = some info.disaster_phase) ∧
    (info.disaster_phase = JField.absent → truthyStr a.disaster_phase = true →
      phaseStored (applyUpdate reg a now) a.scene_id =
        some (JField.val (a.disaster_phase.getD ""))) ∧
    (info.acquisition_date ≠ JField.absent →
      dateStored (applyUpdate reg a now) a.scene_id = some info.acquisition_date) ∧
    (info.acquisition_date = JField.absent → a.acquisition_date.isSome = true →
      dateStored (applyUpdate reg a now) a.scene_id =
        some (JField.val (a.acquisition_date.getD none))) := by
  have hkey : lookupKey (applyUpdate reg a now) a.scene_id =
      some (updateExistingScene info a now) := by
    unfold applyUpdate
    rw [h]
    exact lookupKey_setKey_self reg a.scene_id (updateExistingScene info a now)
  have e1 : (updateExistingScene info a now).disaster_phase =
      (setPhaseIfAbsent { info with maxar_chips := some (info.maxar_chips.getD []) }
        a.disaster_phase).disaster_phase := by
    have e0 : (updateExistingScene info a now).disaster_phase =
        (setDateIfAbsent (setPhaseIfAbsent
          { info with maxar_chips := some (info.maxar_chips.getD []) }
          a.disaster_phase) a.acquisition_date).disaster_phase := rfl
    rw [e0, setDateIfAbsent_phase]
  have e2 : (updateExistingScene info a now).acquisition_date =
      (setDateIfAbsent (setPhaseIfAbsent
        { info with maxar_chips := some (info.maxar_chips.getD []) }
        a.disaster_phase) a.acquisition_date).acquisition_date := rfl
  have hj : (setPhaseIfAbsent { info with maxar_chips := some (info.maxar_chips.getD []) }
      a.disaster_phase).acquisition_date = info.acquisition_date :=
    setPhaseIfAbsent_date _ _
  refine ⟨?_, ?_, ?_, ?_⟩
  · intro hne
    unfold phaseStored
    rw [hkey]
    show some (updateExistingScene info a now).disaster_phase = some info.disaster_phase
    have hkeep : (setPhaseIfAbsent
        { info with maxar_chips := some (info.maxar_chips.getD []) }
        a.disaster_phase).disaster_phase = info.disaster_phase :=
      setPhaseIfAbsent_keep _ _ hne
    rw [e1, hkeep]
  · intro habs ht
    unfold phaseStored
    rw [hkey]
    show some (updateExistingScene info a now).disaster_phase =
      some (JField.val (a.disaster_phase.getD ""))
    have hset : (setPhaseIfAbsent
        { info with maxar_chips := some (info.maxar_chips.getD []) }
        a.disaster_phase).disaster_phase = JField.val (a.disaster_phase.getD "") :=
      setPhaseIfAbsent_set _ _ habs ht
    rw [e1, hset]
  · intro hne
    unfold dateStored
    rw [hkey]
    show some (updateExistingScene info a now).acquisition_date =
      some info.acquisition_date
    have hkeep : (setDateIfAbsent (setPhaseIfAbsent
        { info with maxar_chips := some (info.maxar_chips.getD []) }
        a.disaster_phase) a.acquisition_date).acquisition_date =
        info.acquisition_date := by
      rw [setDateIfAbsent_keep _ _ (by rw [hj]; exact hne), hj]
    rw [e2, hkeep]
  · intro habs ht
    unfold dateStored
    rw [hkey]
    show some (updateExistingScene info a now).acquisition_date =
      some (JField.val (a.acquisition_date.getD none))
    have hset : (setDateIfAbsent (setPhaseIfAbsent
        { info with maxar_chips := some (info.maxar_chips.getD []) }
        a.disaster_phase) a.acquisition_date).acquisition_date =
        JField.val (a.acquisition_date.getD none) :=
      setDateIfAbsent_set _ _ (by rw [hj]; exact habs) ht
    rw [e2, hset]

/-- Witness for C5 (amended): a scene whose phase and date keys are absent
receives the supplied values. -/
theorem c5_amended_first_write_wins_witness :
    phaseStored (applyUpdate regDW argsDW "t") "S5W" =
      some (JField.val "post_disaster") ∧
    dateStored (applyUpdate regDW argsDW "t") "S5W" = some (JField.val (some 7)) := by
  have h := c5_amended_first_write_wins regDW argsDW "t" sceneDW rfl
  exact ⟨h.2.1 rfl rfl, h.2.2.2 rfl rfl⟩

/-- C6: loading the registry is total — every filesystem state yields a
usable registry value rather than an exception: a missing file is
initialised by persisting an empty document (and a subsequent load of
what was persisted re-reads that empty registry); a structurally invalid
file is kept in place, backed up to a timestamped copy, and an empty
registry is returned; a well-formed file is returned as parsed without a
backup. -/
theorem c6_load_total_usable (f : RegFile) :
    (f = RegFile.absent →
      (fix_load_sar_registry f).registry = [] ∧
      (fix_load_sar_registry f).fileAfter = RegFile.wellFormed [] ∧
      (fix_load_sar_registry (fix_load_sar_registry f).fileAfter).registry = []) ∧
    (f = RegFile.invalid →
      (fix_load_sar_registry f).registry = [] ∧
      (fix_load_sar_registry f).backupMade = true ∧
      (fix_load_sar_registry f).fileAfter = RegFile.invalid) ∧
    (∀ r0, f = RegFile.wellFormed r0 →
      (fix_load_sar_registry f).registry = r0 ∧
      (fix_load_sar_registry f).backupMade = false) := by
  cases f with
  | absent =>
    refine ⟨fun _ => ⟨rfl, rfl, rfl⟩, fun hc => RegFile.noConfusion hc, ?_⟩
    intro r0 hc
    exact RegFile.noConfusion hc
  | invalid =>
    refine ⟨fun hc => RegFile.noConfusion hc, fun _ => ⟨rfl, rfl, rfl⟩, ?_⟩
    intro r0 hc
    exact RegFile.noConfusion hc
  | wellFormed r =>
    refine ⟨fun hc => RegFile.noConfusion hc, fun hc => RegFile.noConfusion hc, ?_⟩
    intro r0 hr
    cases hr
    exact ⟨rfl, rfl⟩

/-- Witness for C6: a corrupt registry file is backed up, left in place,
and an empty registry is returned. -/
theorem c6_load_total_usable_witness :
    (fix_load_sar_registry RegFile.invalid).registry = [] ∧
    (fix_load_sar_registry RegFile.invalid).backupMade = true ∧
    (fix_load_sar_registry RegFile.invalid).fileAfter = RegFile.invalid :=
  (c6_load_total_usable RegFile.invalid).2.1 rfl

/-- C7: a request with phase `post_disaster` never matches — in either
pass — a scene whose `disaster_phase` is `pre_disaster`, and vice versa:
whatever scene id the matcher returns belongs to a registry entry whose
phase differs from the opposite phase. -/
theorem c7_phase_exclusion (fs : FileSystem) (mb : Option (List ℚ)) (reg : Registry)
    (mdate : Int) (tol : ℚ) (dateTol : Nat) (reqP sceneP : String) (sid : String)
    (files : List (String × Path))
    (hpair : (reqP = "post_disaster" ∧ sceneP = "pre_disaster") ∨
      (reqP = "pre_disaster" ∧ sceneP = "post_disaster"))
    (h : check_scene_overlap fs mb reg (some reqP) mdate tol dateTol =
      Except.ok (some (sid, files))) :
    ∃ info, (sid, info) ∈ reg ∧ info.disaster_phase ≠ JField.val sceneP := by
  obtain ⟨info, hmem, hskip⟩ :
      ∃ info, (sid, info) ∈ reg ∧ phaseSkip (some reqP) info.disaster_phase = false := by
    cases mb with
    | none =>
      rw [check_scene_overlap_none] at h
      exact Except.noConfusion h
    | some l =>
      rw [check_scene_overlap_some] at h
      by_cases hlen : l.length ≠ 4
      · rw [if_pos hlen] at h
        exact Except.noConfusion h
      · rw [if_neg hlen] at h
        by_cases he : reg.isEmpty = true
        · rw [if_pos he] at h
          exact Option.noConfusion (Except.ok.inj h)
        · rw [if_neg he] at h
          split at h
          next hit hx =>
            have hhit : hit = (sid, files) := Option.some.inj (Except.ok.inj h)
            subst hhit
            exact exactChipPass_mem_phase tol l (some reqP) reg sid files hx
          next hx =>
            split at h
            next hit hy =>
              have hhit : hit = (sid, files) := Option.some.inj (Except.ok.inj h)
              subst hhit
              exact containmentPass_mem_phase fs (1/10) dateTol l (some reqP) mdate
                reg sid files hy
            next hy =>
              exact Option.noConfusion (Except.ok.inj h)
  refine ⟨info, hmem, fun hval => ?_⟩
  rw [hval] at hskip
  rcases hpair with ⟨hr, hs⟩ | ⟨hr, hs⟩ <;> subst hr <;> subst hs <;>
    exact absurd hskip (by decide)

/-- Witness for C7: a post-disaster request matching a post-disaster
scene's chip yields a scene whose phase is not `pre_disaster`. -/
theorem c7_phase_exclusion_witness :
    ∃ info, ("S3", info) ∈ regC ∧ info.disaster_phase ≠ JField.val "pre_disaster" :=
  c7_phase_exclusion fsNone (some [5, 6, 7, 8]) regC 0 (1/100) 30 "post_disaster"
    "pre_disaster" "S3" [("clipped", "c.tif")] (Or.inl ⟨rfl, rfl⟩)
    (by with_unfolding_all rfl)

/-- C9 (counterexample): `update_registry_atomic_fixed` stores the chip
bounds exactly as supplied; at a bound with seven decimal places the
stored value differs from its 6-decimal rounding, so the claim that
stored bounds equal the request's bounding box rounded to 6 decimal
places fails on the code's atomic-update path. -/
theorem c9_unrounded_bounds_counterexample :
    chipBoundsStored (applyUpdate [] argsE "t") "S9" "m9" = some argsE.maxar_bounds ∧
    argsE.maxar_bounds.map round6 ≠ argsE.maxar_bounds := by
  constructor
  · with_unfolding_all rfl
  · with_unfolding_all decide

/-- C9 (amended): for every chip registered through
`update_registry_atomic_fixed`, the stored ChipRecord bounds equal the
requesting chip's bounding box exactly as supplied — this path applies no
rounding (6-decimal rounding exists only in `register_processed_scene`,
which the pipeline does not call). -/
theorem c9_amended_chip_bounds_verbatim (reg : Registry) (a : UpdateArgs)
    (now : String) :
    chipBoundsStored (applyUpdate reg a now) a.scene_id a.maxar_id =
      some a.maxar_bounds := by
  unfold applyUpdate
  split
  next info0 hl =>
    unfold chipBoundsStored
    rw [lookupKey_setKey_self]
    obtain ⟨l, hl2⟩ : ∃ l, (updateExistingScene info0 a now).maxar_chips =
        some (setKey l a.maxar_id (newChipInfo a now)) := ⟨_, rfl⟩
    simp only [Option.some_bind, hl2, lookupKey_setKey_self]
    rfl
  next hl =>
    unfold chipBoundsStored
    rw [lookupKey_append_of_none reg a.scene_id (newSceneRecord a now) hl]
    simp only [Option.some_bind]
    have hc : (newSceneRecord a now).maxar_chips =
        some [(a.maxar_id, newChipInfo a now)] := rfl
    rw [hc]
    simp only [Option.some_bind]
    have hone : lookupKey [(a.maxar_id, newChipInfo a now)] a.maxar_id =
      some (newChipInfo a now) := by
      unfold lookupKey
      simp [List.find?_cons]
    rw [hone]
    rfl

end SarReg
